import Mathlib

/-!
Verification development for the santa structured logging library.

The Go sources are shallowly embedded: pure functions become Lean
functions on `Nat` / `Int` / `String`, machine integers are modelled with
explicit wrap-around arithmetic, and the stateful lifecycle code becomes
explicit state passing over a state structure. Side effects that the
specification talks about (entry pool acquisition and release, sampler,
hook and exporter invocations, context cancellation) are made observable
through explicit event traces appended by the embedded operations.
-/

/- Abbreviations fixed before the `Santa` namespace is opened, because the
source defines functions named `Int` and `String` that would otherwise
shadow the Lean builtin types inside the namespace. -/
abbrev ZZ := Int
abbrev Str := String

namespace Santa

/-- Errors are modelled by their message text, as produced by the Go
`errors.New` calls in logger.go. -/
abbrev Err := Str

/-- `ErrClosed` from logger.go: the instance has been closed. -/
def ErrClosed : Err := "instance has been closed"

/-- `ErrInvalidType` from logger.go: the given type is invalid. -/
def ErrInvalidType : Err := "invalid type"

/-- `ElementType` from field.go: the native data type tag of an element.
The Go type is a uint8 whose zero value means an invalid element; the
nine named constants start at 1. -/
inductive ElementType : Type where
  | typeInvalid : ElementType
  | typeInt : ElementType
  | typeUint : ElementType
  | typeFloat32 : ElementType
  | typeFloat64 : ElementType
  | typeBoolean : ElementType
  | typeString : ElementType
  | typeBytes : ElementType
  | typeFields : ElementType
  | typeValue : ElementType
deriving DecidableEq, Repr

mutual

/-- The `Interface` slot of an `Element` (an arbitrary Go interface
value). The variants that matter to the embedded code are: the nil
interface, a byte slice (stored by the `Bytes` constructor; modelled as a
string of bytes), an `ElementFields` value (the one `JSONFormatter`
implementation exercised by the source under test), and an opaque value
that does not implement the `JSONFormatter` interface. -/
inductive Intf : Type where
  | nilIntf : Intf
  | bytesVal : Str → Intf
  | fieldsVal : List Field → Intf
  | plainVal : Intf

/-- `Element` from field.go: a tagged scalar value with a type tag, an
int64 number slot, a string slot and an interface slot. -/
inductive Element : Type where
  | mk : ElementType → ZZ → Str → Intf → Element

/-- `Field` from field.go: a named element. Go embeds `Element` in
`Field`; here the element is the first component. -/
inductive Field : Type where
  | mk : Element → Str → Field

end

/-- The type tag of an element. -/
def Element.type : Element → ElementType
  | .mk t _ _ _ => t

/-- The int64 number slot of an element. -/
def Element.number : Element → ZZ
  | .mk _ n _ _ => n

/-- The string slot of an element. -/
def Element.str : Element → Str
  | .mk _ _ s _ => s

/-- The interface slot of an element. -/
def Element.intf : Element → Intf
  | .mk _ _ _ i => i

/-- The element (value) of a field. -/
def Field.element : Field → Element
  | .mk e _ => e

/-- The name of a field. -/
def Field.name : Field → Str
  | .mk _ n => n

/- Wrap-around casts between the Go machine integer types. A uint64 value
is a natural number below 2^64; an int64 value is an integer in
[-2^63, 2^63). -/

/-- The Go conversion `int64(v)` for a uint64 value `v`: two-complement
wrap-around. -/
def int64OfUint64 (v : Nat) : ZZ :=
  if v < 2 ^ 63 then (v : ZZ) else (v : ZZ) - 2 ^ 64

/-- The Go conversion `uint64(n)` for an int64 value `n`: two-complement
wrap-around, i.e. the representative of `n` modulo 2^64 in [0, 2^64). -/
def uint64OfInt64 (n : ZZ) : Nat :=
  (n % 2 ^ 64).toNat

/-- Go `strconv.AppendInt(buffer, n, 10)`: append the base-10 decimal
representation of an int64, with a leading minus sign when negative. -/
def appendInt (buffer : Str) (n : ZZ) : Str :=
  buffer ++ toString n

/-- Go `strconv.AppendUint(buffer, v, 10)`: append the base-10 decimal
digits of a uint64, with no sign. -/
def appendUint (buffer : Str) (v : Nat) : Str :=
  buffer ++ toString v

/- IEEE-754 model. Finite float values are represented exactly: a finite
float is a signed dyadic rational mant * 2 ^ e2. All computations below
are exact integer arithmetic; no approximate real arithmetic is used. -/

/-- The value denoted by an IEEE-754 binary64 bit pattern: NaN, a signed
infinity, or a signed finite magnitude mant * 2 ^ e2. The sign flag is
true for negative. -/
inductive FloatVal : Type where
  | nan : FloatVal
  | inf : Bool → FloatVal
  | finite : Bool → Nat → ZZ → FloatVal
deriving DecidableEq, Repr

/-- Go `math.Float64frombits`: decode a binary64 bit pattern. -/
def f64FromBits (b : Nat) : FloatVal :=
  let sign := b / 2 ^ 63 % 2 = 1
  let expField : Nat := b / 2 ^ 52 % 2 ^ 11
  let frac := b % 2 ^ 52
  if expField = 2047 then
    if frac = 0 then FloatVal.inf sign else FloatVal.nan
  else if expField = 0 then
    FloatVal.finite sign frac (-1074)
  else
    FloatVal.finite sign (2 ^ 52 + frac) ((expField : ZZ) - 1075)

/-- Compare M * 2 ^ E with c * 2 ^ F * 5 ^ G by clearing all negative
exponents into the other side (exact integer comparison). -/
def cmpScaled (M : Nat) (E : ZZ) (c : Nat) (F G : ZZ) : Ordering :=
  let e := E - F
  let l := M * 2 ^ (max e 0).toNat * 5 ^ (max (-G) 0).toNat
  let r := c * 2 ^ (max (-e) 0).toNat * 5 ^ (max G 0).toNat
  compare l r

/-- Round-half-even of the nonnegative rational N / D to an integer
(D assumed positive). -/
def rheNat (N D : Nat) : Nat :=
  let f := N / D
  let r := N % D
  if 2 * r < D then f
  else if D < 2 * r then f + 1
  else if f % 2 = 0 then f else f + 1

/-- Whether 2 ^ e is at most N / D (N, D positive). -/
def pow2LeRat (e : ZZ) (N D : Nat) : Bool :=
  if 0 ≤ e then 2 ^ e.toNat * D ≤ N else D ≤ N * 2 ^ (-e).toNat

/-- Whether 10 ^ d is at most N / D (N, D positive). -/
def pow10LeRat (d : ZZ) (N D : Nat) : Bool :=
  if 0 ≤ d then 10 ^ d.toNat * D ≤ N else D ≤ N * 10 ^ (-d).toNat

/-- Fuel-bounded floor base-2 logarithm of a natural number (0 for
inputs below 2), used as a first estimate; structurally recursive so
that it evaluates inside the kernel. -/
def natLog2F : Nat → Nat → Nat
  | 0, _ => 0
  | fuel + 1, n => if n ≤ 1 then 0 else natLog2F fuel (n / 2) + 1

/-- Lower an over-estimate of the floor base-2 logarithm of N / D until it
is a valid lower bound (fuel-bounded search). -/
def log2AdjustDown : Nat → ZZ → Nat → Nat → ZZ
  | 0, e, _, _ => e
  | fuel + 1, e, N, D => if pow2LeRat e N D then e else log2AdjustDown fuel (e - 1) N D

/-- Raise a lower bound of the floor base-2 logarithm of N / D as long as
the next power still fits (fuel-bounded search). -/
def log2AdjustUp : Nat → ZZ → Nat → Nat → ZZ
  | 0, e, _, _ => e
  | fuel + 1, e, N, D => if pow2LeRat (e + 1) N D then log2AdjustUp fuel (e + 1) N D else e

/-- Floor base-2 logarithm of the positive rational N / D: the unique e
with 2 ^ e ≤ N / D < 2 ^ (e + 1). The bit-length estimate is off by at
most one, so a tiny adjustment search suffices. -/
def floorLog2Rat (N D : Nat) : ZZ :=
  log2AdjustUp 4 (log2AdjustDown 4 ((natLog2F 8192 N : ZZ) - (natLog2F 8192 D : ZZ)) N D) N D

/-- Lower an over-estimate of the floor base-10 logarithm of N / D until
it is a valid lower bound (fuel-bounded search). -/
def log10AdjustDown : Nat → ZZ → Nat → Nat → ZZ
  | 0, d, _, _ => d
  | fuel + 1, d, N, D => if pow10LeRat d N D then d else log10AdjustDown fuel (d - 1) N D

/-- Raise a lower bound of the floor base-10 logarithm of N / D as long as
the next power still fits (fuel-bounded search). -/
def log10AdjustUp : Nat → ZZ → Nat → Nat → ZZ
  | 0, d, _, _ => d
  | fuel + 1, d, N, D => if pow10LeRat (d + 1) N D then log10AdjustUp fuel (d + 1) N D else d

/-- Floor base-10 logarithm of the positive rational N / D, obtained from
the base-2 logarithm scaled by log10(2) and a small adjustment search. -/
def decExpRat (N D : Nat) : ZZ :=
  let d0 := (floorLog2Rat N D * 301) / 1000
  log10AdjustUp 8 (log10AdjustDown 8 d0 N D) N D

/-- Write the positive rational N / D over a power of two: the pair
(numerator, denominator) for mant * 2 ^ e2. -/
def dyadicToFrac (M : Nat) (E : ZZ) : Nat × Nat :=
  if 0 ≤ E then (M * 2 ^ E.toNat, 1) else (M, 2 ^ (-E).toNat)

/-- Write the decimal c * 10 ^ p as a fraction. -/
def decimalToFrac (c : Nat) (p : ZZ) : Nat × Nat :=
  if 0 ≤ p then (c * 10 ^ p.toNat, 1) else (c, 10 ^ (-p).toNat)

/-- Round the positive rational N / D to the nearest magnitude
representable in a binary floating-point format with prec mantissa bits,
minimum exponent of the least significant mantissa bit minQ, and maximum
binade exponent maxE. Returns the mantissa / exponent pair (the mantissa
is 0 on underflow to zero), or none on overflow to infinity. Rounding is
round-to-nearest, ties to even, as in IEEE-754 and Go conversions. -/
def roundFloatMag (prec : Nat) (minQ maxE : ZZ) (N D : Nat) : Option (Nat × ZZ) :=
  let L := floorLog2Rat N D
  let q := max (L - ((prec : ZZ) - 1)) minQ
  let n := if 0 ≤ q then rheNat N (D * 2 ^ q.toNat) else rheNat (N * 2 ^ (-q).toNat) D
  let nq := if n = 2 ^ prec then (2 ^ (prec - 1), q + 1) else (n, q)
  match cmpScaled nq.1 nq.2 1 (maxE + 1) 0 with
  | Ordering.lt => some nq
  | _ => none

/-- Floor of (N / D) / 10 ^ p, exact in integer arithmetic. -/
def floorDiv10 (N D : Nat) (p : ZZ) : Nat :=
  if 0 ≤ p then N / (D * 10 ^ p.toNat) else (N * 10 ^ (-p).toNat) / D

/-- Among the two bracketing decimal candidates n0 * 10 ^ p and
(n0 + 1) * 10 ^ p around the float value vn * 2 ^ vq, select the one that
converts back to the float (flags ok0 / ok1), preferring the closer one
and breaking exact ties towards an even last digit. -/
def pickCandidate (vn : Nat) (vq : ZZ) (n0 : Nat) (p : ZZ) (ok0 ok1 : Bool) : Option Nat :=
  if ok0 && ok1 then
    match cmpScaled (2 * vn) vq (2 * n0 + 1) p p with
    | Ordering.lt => some n0
    | Ordering.gt => some (n0 + 1)
    | Ordering.eq => some (if n0 % 2 = 0 then n0 else n0 + 1)
  else if ok0 then some n0
  else if ok1 then some (n0 + 1)
  else none

/-- Search for the shortest decimal digit count whose nearest decimal of
that length converts back to the float vn * 2 ^ vq exactly; returns the
selected digits and their decimal exponent. N / D is the exact value of
the float and e10 its floor base-10 logarithm; k is the digit count being
tried and the first argument is fuel (17 significant digits always
suffice for binary64, 9 for binary32). -/
def shortestLoop (prec : Nat) (minQ maxE : ZZ) (vn : Nat) (vq : ZZ)
    (N D : Nat) (e10 : ZZ) : Nat → Nat → Nat × ZZ
  | 0, _ => (vn, vq)
  | fuel + 1, k =>
    let p := e10 - (k : ZZ) + 1
    let n0 := floorDiv10 N D p
    let rt := fun c =>
      let f := decimalToFrac c p
      decide (roundFloatMag prec minQ maxE f.1 f.2 = some (vn, vq))
    match pickCandidate vn vq n0 p (rt n0) (rt (n0 + 1)) with
    | some c => (c, p)
    | none => shortestLoop prec minQ maxE vn vq N D e10 fuel (k + 1)

/-- Positional rendering of the decimal c * 10 ^ p in the style of the
Go verb f with no exponent: digits, a decimal point when p is negative,
and zero padding as needed. -/
def renderFixed (c : Nat) (p : ZZ) : Str :=
  let ds := toString c
  if 0 ≤ p then ds ++ String.mk (List.replicate p.toNat '0')
  else
    let t := (-p).toNat
    let l := ds.toList
    if t < l.length then
      String.mk (l.take (l.length - t) ++ '.' :: l.drop (l.length - t))
    else
      "0." ++ String.mk (List.replicate (t - l.length) '0') ++ ds

/-- The shortest round-trip decimal rendering of a float value in a
format with prec mantissa bits, as produced by Go
strconv.FormatFloat(x, f-verb, -1, bitSize): the input float64 value is
first rounded to the target format (for bitSize 32 this is the float32
conversion strconv performs), then the shortest decimal that converts
back to exactly that float is rendered positionally. -/
def formatFloatShortest (prec : Nat) (minQ maxE : ZZ) (v : FloatVal) : Str :=
  match v with
  | FloatVal.nan => "NaN"
  | FloatVal.inf s => if s then "-Inf" else "+Inf"
  | FloatVal.finite s M E =>
    if M = 0 then (if s then "-0" else "0")
    else
      let f0 := dyadicToFrac M E
      match roundFloatMag prec minQ maxE f0.1 f0.2 with
      | none => if s then "-Inf" else "+Inf"
      | some vnq =>
        if vnq.1 = 0 then (if s then "-0" else "0")
        else
          let f := dyadicToFrac vnq.1 vnq.2
          let e10 := decExpRat f.1 f.2
          let cp := shortestLoop prec minQ maxE vnq.1 vnq.2 f.1 f.2 e10 25 1
          (if s then "-" else "") ++ renderFixed cp.1 cp.2

/-- Go `strconv.AppendFloat(buffer, math.Float64frombits(b), 'f', -1, 32)`:
decode b as a binary64, convert to binary32, append the shortest
round-trip decimal. -/
def appendFloat32Shortest (buffer : Str) (b : Nat) : Str :=
  buffer ++ formatFloatShortest 24 (-149) 127 (f64FromBits b)

/-- Go `strconv.AppendFloat(buffer, math.Float64frombits(b), 'f', -1, 64)`:
decode b as a binary64, append the shortest round-trip decimal. -/
def appendFloat64Shortest (buffer : Str) (b : Nat) : Str :=
  buffer ++ formatFloatShortest 53 (-1074) 1023 (f64FromBits b)

mutual

/-- `Element.FormatJSON` from field.go: appends the JSON representation
of the element to the buffer. The switch is over the type tag; the
default branch performs the Go type assertion of the interface slot to
`JSONFormatter`, which succeeds exactly for the `ElementFields` variant
and otherwise appends the literal placeholder. The TypeBytes branch
asserts the interface slot to a byte slice; elements built by the
provided constructors always satisfy that assertion (Go would panic
otherwise), so the byte content defaults to empty here. -/
def Element.FormatJSON : Element → Str → Str
  | Element.mk t n s i, buffer =>
    match t with
    | ElementType.typeInt => appendInt buffer n
    | ElementType.typeUint => appendUint buffer (uint64OfInt64 n)
    | ElementType.typeFloat32 => appendFloat32Shortest buffer (uint64OfInt64 n)
    | ElementType.typeFloat64 => appendFloat64Shortest buffer (uint64OfInt64 n)
    | ElementType.typeBoolean =>
      if 0 < n then buffer ++ "true" else buffer ++ "false"
    | ElementType.typeString => buffer ++ "\"" ++ s ++ "\""
    | ElementType.typeBytes =>
      match i with
      | Intf.bytesVal bs => buffer ++ "\"" ++ bs ++ "\""
      | _ => buffer ++ "\"" ++ "\""
    | _ =>
      match i with
      | Intf.fieldsVal fs => ElementFields.FormatJSON fs buffer
      | _ => buffer ++ "???"
termination_by e _ => (sizeOf e, 0)

/-- `ElementFields.FormatJSON` from field.go: appends a JSON object whose
members are the fields in insertion order, separated by a comma and a
space. -/
def ElementFields.FormatJSON : List Field → Str → Str
  | fs, buffer => fieldsLoop fs (buffer ++ "\x7b") ++ "\x7d"
termination_by fs _ => (sizeOf fs, 1)

/-- The indexed loop inside `ElementFields.FormatJSON`: per field, the
quoted name, a colon-space, the field value, and a separator for every
field but the last. -/
def fieldsLoop : List Field → Str → Str
  | [], buffer => buffer
  | Field.mk e name :: rest, buffer =>
    let buffer := Element.FormatJSON e (buffer ++ "\"" ++ name ++ "\": ")
    match rest with
    | [] => buffer
    | f :: rest2 => fieldsLoop (f :: rest2) (buffer ++ ", ")
termination_by fs _ => (sizeOf fs, 0)

end


/- ===== Entry pipeline: Logger.Output from logger.go ===== -/

/-- Modelled from the spec: the `Level` type is not among the provided
source files (only its callers are). Levels are an ordered scalar;
following the option documentation in logger.go, the order is
Debug < Info < Warning < Error < Fatal. -/
abbrev Level := Int

/-- The DEBUG level. -/
def LevelDebug : Level := 0

/-- The INFO level. -/
def LevelInfo : Level := 1

/-- The WARNING level. -/
def LevelWarning : Level := 2

/-- The ERROR level. -/
def LevelError : Level := 3

/-- The FATAL level. -/
def LevelFatal : Level := 4

/-- Modelled from the spec: `Level.Enabled` is not among the provided
source files. Per the spec ("log entries below the lowest level will be
discarded", pipeline step 1) a level is enabled iff it is at least the
receiver, which is the minimum level of the logger. -/
def Level.Enabled (l level : Level) : Bool := l ≤ level

/-- Log messages are opaque to the pipeline (the `Message` interface);
modelled by their payload text. -/
abbrev Message := Str

/-- The pre-serialized label set attached to a logger, opaque to the
pipeline; modelled by its serialized text. -/
abbrev SerializedLabels := Str

/-- A call-site source location (`runtime.Caller` result), opaque to the
pipeline. -/
abbrev SourceLocation := Str

/-- Modelled from the spec: the `Entry` structure is not among the
provided source files. It is the pooled record that `Output` stamps with
name, level, time, message and labels, and optionally a source
location. -/
structure Entry where
  name : Str
  level : Level
  time : Nat
  message : Message
  labels : SerializedLabels
  sourceLocation : Option SourceLocation
deriving DecidableEq, Repr

/-- The observable events of one `Output` call: pooled-entry acquisition
(`pool.Entry.New`), a sampler decision, a hook `Print` invocation by
registration index, an exporter `Export` invocation by registration
index, and the release of the entry back to the pool
(`pool.Entry.Free`). -/
inductive Event : Type where
  | acquire : Event
  | sample : Bool → Event
  | hookPrint : Nat → Event
  | exportTo : Nat → Event
  | free : Event
deriving DecidableEq, Repr

/-- `Logger` from logger.go: the immutable pipeline configuration. The
sampler is modelled by its decision function, hooks and exporters by the
error each returns for a given entry. -/
structure Logger where
  name : Str
  level : Level
  sampler : Option (Entry → Bool)
  hooks : List (Entry → Option Err)
  exporters : List (Entry → Option Err)
  labels : SerializedLabels
  addSource : Bool

/-- The hook loop of `Output`: each hook `Print(entry)` runs in
registration order and the first error stops the loop. Returns the error
and the trace of hook invocations; `index` is the loop counter. -/
def runHooks : List (Entry → Option Err) → Entry → Nat → Option Err × List Event
  | [], _, _ => (none, [])
  | h :: rest, entry, index =>
    match h entry with
    | some err => (some err, [Event.hookPrint index])
    | none =>
      let t := runHooks rest entry (index + 1)
      (t.1, Event.hookPrint index :: t.2)

/-- The exporter loop of `Output`: each exporter `Export(entry)` runs in
registration order and the first error stops the loop. Returns the error
and the trace of exporter invocations. -/
def runExporters : List (Entry → Option Err) → Entry → Nat → Option Err × List Event
  | [], _, _ => (none, [])
  | e :: rest, entry, index =>
    match e entry with
    | some err => (some err, [Event.exportTo index])
    | none =>
      let t := runExporters rest entry (index + 1)
      (t.1, Event.exportTo index :: t.2)

/-- The entry stamping at the top of `Output`: the acquired entry has
every field re-initialized from the logger and the call; `time.Now()` is
the `now` parameter, and the source location is not yet attached. -/
def Logger.stampEntry (l : Logger) (level : Level) (message : Message) (now : Nat) : Entry :=
  { name := l.name, level := level, time := now, message := message,
    labels := l.labels, sourceLocation := none }

/-- The source-location step of `Output`: when `addSource` is set, the
caller location (`runtime.Caller` at the stack hint) is attached to the
entry; otherwise the entry is unchanged. -/
def Logger.locateEntry (l : Logger) (entry : Entry) (caller : SourceLocation) : Entry :=
  if l.addSource then { entry with sourceLocation := some caller } else entry

/-- The tail of `Output` after the sampler kept the entry: attach the
source location, run the hooks, then the exporters; the entry is
released on the hook-error exit, the exporter-error exit and the success
exit. `pre` is the event trace accumulated before this point. -/
def Logger.outputRest (l : Logger) (entry0 : Entry) (caller : SourceLocation)
    (pre : List Event) : Option Err × List Event :=
  let entry := l.locateEntry entry0 caller
  match runHooks l.hooks entry 0 with
  | (some err, hevs) => (some err, pre ++ hevs ++ [Event.free])
  | (none, hevs) =>
    let t := runExporters l.exporters entry 0
    (t.1, pre ++ hevs ++ t.2 ++ [Event.free])

/-- `Logger.Output` from logger.go: level filter, empty-exporter filter,
pooled-entry stamping, sampling, source location, hooks, exporters, and
release. The parameters `now` (the `time.Now()` value) and `caller` (the
`runtime.Caller` result for the `stacks` hint) make the two environment
reads explicit inputs. Returns the error result together with the
observable event trace of the call. -/
def Logger.Output (l : Logger) (stackDepth : Int) (level : Level) (message : Message)
    (now : Nat) (caller : SourceLocation) : Option Err × List Event :=
  if ¬ l.level.Enabled level then (none, [])
  else if l.exporters.length = 0 then (none, [])
  else
    let entry0 := l.stampEntry level message now
    match l.sampler with
    | some s =>
      if ¬ s entry0 then (none, [Event.acquire, Event.sample false, Event.free])
      else l.outputRest entry0 caller [Event.acquire, Event.sample true]
    | none => l.outputRest entry0 caller [Event.acquire]

/-- Whether a configured sampler keeps the freshly stamped entry (a
logger without a sampler keeps everything). -/
def Logger.samplerKeeps (l : Logger) (entry : Entry) : Prop :=
  match l.sampler with
  | some s => s entry = true
  | none => True

/-- The trace prefix of an enabled `Output` call before the hook loop:
the entry acquisition, plus a positive sampler decision when a sampler
is configured. -/
def Logger.enabledPrefix (l : Logger) : List Event :=
  match l.sampler with
  | some _ => [Event.acquire, Event.sample true]
  | none => [Event.acquire]

/- ===== Lifecycle: StandardLogger from logger.go ===== -/

/-- Observable teardown events of the lifecycle manager: cancellation of
the shared background context (`contextCancel`), waiting for the
background flush task to exit (`contextWaitGroup.Wait`), and a `Close`
call on the exporter with the given registration index. -/
inductive TEvent : Type where
  | cancel : TEvent
  | wait : TEvent
  | closeExporter : Nat → TEvent
deriving DecidableEq, Repr

/-- The lifecycle state of a standard logger together with all of its
`Duplicate` copies: the shared reference count (`contextReferences`),
the per-copy `closed` flags (one entry per copy; every duplication
appends one), whether the shared context has been cancelled, whether the
flush task has been awaited, the teardown event log, and how many times
the teardown path ran. -/
structure StdState where
  references : Int
  closedFlags : List Bool
  cancelled : Bool
  flushWaited : Bool
  teardownLog : List TEvent
  teardowns : Nat
deriving DecidableEq, Repr

/-- The exporter-closing loop of `StandardLogger.Close`: exporters are
closed in registration order and the first error returns immediately.
`cfg` lists the error each exporter Close call returns; the result is
the returned error and the number of exporters whose Close was
invoked. -/
def closeExporterLoop : List (Option Err) → Option Err × Nat
  | [] => (none, 0)
  | e :: rest =>
    match e with
    | some err => (some err, 1)
    | none =>
      let t := closeExporterLoop rest
      (t.1, t.2 + 1)

/-- `StandardOption.Build` from logger.go, restricted to the lifecycle
state it creates: one copy whose closed flag is unset, the shared
reference count initialized to 1, a live context, a not-yet-awaited
flush task, and no teardown performed. -/
def StdBuild : StdState :=
  { references := 1, closedFlags := [false], cancelled := false, flushWaited := false,
    teardownLog := [], teardowns := 0 }

/-- `StandardLogger.Close` from logger.go, invoked on copy `i` (an
out-of-range index behaves as an already-closed copy; it corresponds to
no Go execution). The compare-and-swap on the per-copy closed flag fails
with the already-closed error when the flag is already set. Otherwise
the shared count is decremented: a positive result returns success
without touching shared resources; a negative result reports the
already-closed error; exactly zero performs teardown — cancel the
shared context, await the flush task, then close the exporters in
registration order until the first error, which is returned. -/
def StdClose (cfg : List (Option Err)) (s : StdState) (i : Nat) : Option Err × StdState :=
  if s.closedFlags.getD i true then (some ErrClosed, s)
  else
    let flags := s.closedFlags.set i true
    let references := s.references - 1
    if 0 < references then
      (none, { s with closedFlags := flags, references := references })
    else if references < 0 then
      (some ErrClosed, { s with closedFlags := flags, references := references })
    else
      let t := closeExporterLoop cfg
      (t.1,
        { references := references, closedFlags := flags, cancelled := true,
          flushWaited := true,
          teardownLog := s.teardownLog ++ [TEvent.cancel, TEvent.wait]
            ++ (List.range t.2).map TEvent.closeExporter,
          teardowns := s.teardowns + 1 })

/-- `Int` from field.go: a field holding an int64 value. -/
def Int (name : Str) (value : ZZ) : Field :=
  Field.mk (Element.mk ElementType.typeInt value "" Intf.nilIntf) name

/-- `Uint` from field.go: a field holding a uint64 value; the number slot
stores the Go conversion `int64(value)`. -/
def Uint (name : Str) (value : Nat) : Field :=
  Field.mk (Element.mk ElementType.typeUint (int64OfUint64 value) "" Intf.nilIntf) name

/-- `Float32` from field.go: a field holding a float32 value. The float32
argument is represented by its IEEE-754 binary32 bit pattern, so the Go
`math.Float32bits(value)` is the identity here, and the number slot
stores `int64(math.Float32bits(value))` (a value below 2^32, so the
int64 conversion is value-preserving). -/
def Float32 (name : Str) (valueBits : Nat) : Field :=
  Field.mk (Element.mk ElementType.typeFloat32 (int64OfUint64 valueBits) "" Intf.nilIntf) name

/-- `Float64` from field.go: a field holding a float64 value represented
by its IEEE-754 binary64 bit pattern; the number slot stores
`int64(math.Float64bits(value))` with wrap-around. -/
def Float64 (name : Str) (valueBits : Nat) : Field :=
  Field.mk (Element.mk ElementType.typeFloat64 (int64OfUint64 valueBits) "" Intf.nilIntf) name

/-- `Boolean` from field.go: a field holding a bool value; the number
slot stores 1 for true and 0 for false. -/
def Boolean (name : Str) (value : Bool) : Field :=
  Field.mk (Element.mk ElementType.typeBoolean (if value then 1 else 0) "" Intf.nilIntf) name

/-- `String` from field.go: a field holding a string value in the string
slot. -/
def String (name : Str) (value : Str) : Field :=
  Field.mk (Element.mk ElementType.typeString 0 value Intf.nilIntf) name

/-- `Bytes` from field.go: a field holding a byte slice in the interface
slot. -/
def Bytes (name : Str) (value : Str) : Field :=
  Field.mk (Element.mk ElementType.typeBytes 0 "" (Intf.bytesVal value)) name

/-- Go promotes the embedded `Element` methods to `Field`, so calling
`FormatJSON` on a field formats its element. -/
def Field.FormatJSON (f : Field) (buffer : Str) : Str :=
  Element.FormatJSON f.element buffer

/- ===== End of definitions; theorems follow. ===== -/

/-- The two-complement round trip: casting a uint64 value to int64 and
back recovers the value exactly. -/
theorem uint64_int64_roundtrip (v : Nat) (h : v < 2 ^ 64) :
    uint64OfInt64 (int64OfUint64 v) = v := by
  simp only [uint64OfInt64, int64OfUint64]
  split <;> omega

/-- C9: encoding the field sequence [fieldsOmit a 1, b x] with
`ElementFields.FormatJSON` on an empty buffer yields exactly the JSON
object bytes, and a boolean element built by `Boolean` formats as the
literal true respectively false. -/
theorem json_roundtrip_example :
    ElementFields.FormatJSON [Int "a" 1, String "b" "x"] "" = "\x7b\"a\": 1, \"b\": \"x\"\x7d"
      ∧ Field.FormatJSON (Boolean "n" true) "" = "true"
      ∧ Field.FormatJSON (Boolean "n" false) "" = "false" := by
  refine ⟨?_, ?_, ?_⟩
  · simp [ElementFields.FormatJSON, fieldsLoop, Element.FormatJSON, Int, String]
    decide
  · simp [Field.FormatJSON, Boolean, Field.element, Element.FormatJSON]
  · simp [Field.FormatJSON, Boolean, Field.element, Element.FormatJSON]

/-- C10: for every field name and every uint64 value v (including values
at and above 2^63), formatting the field built by `Uint` appends exactly
the base-10 decimal digits of v with no sign: the wrapping int64 store
followed by the uint64 cast in FormatJSON recovers v exactly. -/
theorem uint_field_formats_decimal_digits (name : Str) (v : Nat) (h : v < 2 ^ 64)
    (buffer : Str) :
    Field.FormatJSON (Uint name v) buffer = buffer ++ toString v := by
  simp [Field.FormatJSON, Uint, Field.element, Element.FormatJSON, appendUint,
    uint64_int64_roundtrip v h]

/-- Witness for `uint_field_formats_decimal_digits` at the largest uint64
value. -/
theorem uint_field_formats_decimal_digits_witness :
    2 ^ 64 - 1 < 2 ^ 64 ∧
      Field.FormatJSON (Uint "n" (2 ^ 64 - 1)) "" = "" ++ toString (2 ^ 64 - 1) :=
  ⟨by norm_num, uint_field_formats_decimal_digits "n" (2 ^ 64 - 1) (by norm_num) ""⟩

set_option maxRecDepth 100000 in
/-- C2 (evaluation of the code at the failing input): the field built by
`Float32` with value 1.5 (binary32 pattern 0x3FC00000) formats as the
decimal 0, not as 1.5; the second conjunct shows that the shortest
round-trip decimal of 1.5 at binary32 precision — what the claim
requires — is the distinct string 1.5. The cause: `Float32` stores
`math.Float32bits(value)` but `FormatJSON` decodes the number slot with
`math.Float64frombits`, so the binary32 pattern of 1.5 is read as a
subnormal binary64 (about 5.3e-315) that collapses to zero when
strconv.AppendFloat converts it to binary32 for rendering. -/
theorem float32_field_renders_zero_not_value :
    Field.FormatJSON (Float32 "n" 0x3FC00000) "" = "0"
      ∧ formatFloatShortest 24 (-149) 127 (f64FromBits 0x3FF8000000000000) = "1.5"
      ∧ ("0" : Str) ≠ "1.5" := by
  refine ⟨?_, by decide, by decide⟩
  simp [Field.FormatJSON, Float32, Field.element, Element.FormatJSON]
  decide

/-- C3: when the level is below the configured minimum or the exporter
list is empty, `Output` returns success immediately and produces no
observable event: no pooled entry is acquired and the sampler, hooks and
exporters are never invoked. -/
theorem output_disabled_is_noop (l : Logger) (stackDepth : ZZ) (level : Level)
    (message : Message) (now : Nat) (caller : SourceLocation)
    (h : l.level.Enabled level = false ∨ l.exporters = []) :
    l.Output stackDepth level message now caller = (none, []) := by
  rcases h with h | h
  · simp [Logger.Output, h]
  · simp only [Logger.Output, h, List.length_nil]
    split
    · rfl
    · simp

/-- Witness for `output_disabled_is_noop`: a logger at minimum level
INFO with one exporter, called at DEBUG, emits nothing and succeeds. -/
theorem output_disabled_is_noop_witness :
    (Level.Enabled LevelInfo LevelDebug = false
        ∨ ({ name := "", level := LevelInfo, sampler := none, hooks := [],
             exporters := [fun _ => none], labels := "", addSource := false } : Logger).exporters
            = [])
      ∧ ({ name := "", level := LevelInfo, sampler := none, hooks := [],
           exporters := [fun _ => none], labels := "", addSource := false } : Logger).Output
          2 LevelDebug "m" 0 "" = (none, []) :=
  ⟨Or.inl (by decide),
    output_disabled_is_noop _ 2 LevelDebug "m" 0 "" (Or.inl (by decide))⟩

/-- C4: on an enabled call with a configured sampler, a false sampler
decision releases the entry and returns success (not an error), and no
hook invocation and no exporter invocation appears in the trace. -/
theorem output_sampler_false_drops (l : Logger) (stackDepth : ZZ) (level : Level)
    (message : Message) (now : Nat) (caller : SourceLocation) (s : Entry → Bool)
    (henabled : l.level.Enabled level = true) (hexp : l.exporters ≠ [])
    (hs : l.sampler = some s)
    (hdrop : s (l.stampEntry level message now) = false) :
    l.Output stackDepth level message now caller
        = (none, [Event.acquire, Event.sample false, Event.free])
      ∧ ∀ i : Nat, Event.hookPrint i ∉ [Event.acquire, Event.sample false, Event.free]
          ∧ Event.exportTo i ∉ [Event.acquire, Event.sample false, Event.free] := by
  refine ⟨?_, by intro i; constructor <;> simp⟩
  simp [Logger.Output, henabled, hs, hdrop, List.length_eq_zero, hexp]

/-- Witness for `output_sampler_false_drops`: a logger whose sampler
rejects everything drops an INFO record silently. -/
theorem output_sampler_false_drops_witness :
    ({ name := "", level := LevelDebug, sampler := some (fun _ => false), hooks := [],
       exporters := [fun _ => none], labels := "", addSource := false } : Logger).Output
        2 LevelInfo "m" 0 ""
      = (none, [Event.acquire, Event.sample false, Event.free]) :=
  (output_sampler_false_drops _ 2 LevelInfo "m" 0 "" (fun _ => false)
    (by decide) (by simp) rfl rfl).1

/-- First-error behaviour of the hook loop: when every hook before `hk`
succeeds on the entry and `hk` returns an error, the loop returns that
error and its trace lists exactly the invoked hooks, in registration
order, ending at `hk`. -/
theorem runHooks_first_error (pre : List (Entry → Option Err)) (hk : Entry → Option Err)
    (post : List (Entry → Option Err)) (entry : Entry) (index : Nat) (err : Err)
    (hpre : ∀ h ∈ pre, h entry = none) (herr : hk entry = some err) :
    runHooks (pre ++ hk :: post) entry index
      = (some err, (List.range' index (pre.length + 1)).map Event.hookPrint) := by
  induction pre generalizing index with
  | nil => simp [runHooks, herr, List.range'_succ]
  | cons h rest ih =>
    have h0 : h entry = none := hpre h (by simp)
    have hrest : ∀ g ∈ rest, g entry = none := fun g hg => hpre g (by simp [hg])
    simp only [List.cons_append, runHooks, h0, List.append_eq]
    rw [ih (index + 1) hrest]
    simp [List.range'_succ]

/-- Every event the hook loop emits is a hook invocation. -/
theorem runHooks_events (hooks : List (Entry → Option Err)) (entry : Entry) (index : Nat) :
    ∀ e ∈ (runHooks hooks entry index).2, ∃ j, e = Event.hookPrint j := by
  induction hooks generalizing index with
  | nil => simp [runHooks]
  | cons h rest ih =>
    intro e he
    simp only [runHooks] at he
    cases hh : h entry with
    | some err =>
      rw [hh] at he
      simp at he
      exact ⟨index, he⟩
    | none =>
      rw [hh] at he
      simp at he
      rcases he with he | he
      · exact ⟨index, he⟩
      · exact ih (index + 1) e he

/-- Every event the exporter loop emits is an exporter invocation. -/
theorem runExporters_events (exporters : List (Entry → Option Err)) (entry : Entry)
    (index : Nat) :
    ∀ e ∈ (runExporters exporters entry index).2, ∃ j, e = Event.exportTo j := by
  induction exporters generalizing index with
  | nil => simp [runExporters]
  | cons h rest ih =>
    intro e he
    simp only [runExporters] at he
    cases hh : h entry with
    | some err =>
      rw [hh] at he
      simp at he
      exact ⟨index, he⟩
    | none =>
      rw [hh] at he
      simp at he
      rcases he with he | he
      · exact ⟨index, he⟩
      · exact ih (index + 1) e he

/-- C5: during an enabled `Output` call that the sampler keeps, the hooks
run in registration order until the first hook error; that exact error
is returned to the caller, the entry is released to the pool, and every
later hook and every exporter is skipped (no exporter invocation appears
in the trace). -/
theorem output_hook_error_aborts (l : Logger) (stackDepth : ZZ) (level : Level)
    (message : Message) (now : Nat) (caller : SourceLocation)
    (pre post : List (Entry → Option Err)) (hk : Entry → Option Err) (err : Err)
    (henabled : l.level.Enabled level = true) (hexp : l.exporters ≠ [])
    (hkeep : l.samplerKeeps (l.stampEntry level message now))
    (hhooks : l.hooks = pre ++ hk :: post)
    (hpre : ∀ h ∈ pre, h (l.locateEntry (l.stampEntry level message now) caller) = none)
    (herr : hk (l.locateEntry (l.stampEntry level message now) caller) = some err) :
    l.Output stackDepth level message now caller
        = (some err,
            l.enabledPrefix ++ (List.range' 0 (pre.length + 1)).map Event.hookPrint
              ++ [Event.free])
      ∧ ∀ i : Nat,
          Event.exportTo i
            ∉ l.enabledPrefix ++ (List.range' 0 (pre.length + 1)).map Event.hookPrint
                ++ [Event.free] := by
  have hlen : ¬ l.exporters.length = 0 := by simpa [List.length_eq_zero] using hexp
  have hloc := runHooks_first_error pre hk post
    (l.locateEntry (l.stampEntry level message now) caller) 0 err hpre herr
  constructor
  · cases hs : l.sampler with
    | none =>
      simp only [Logger.Output, henabled, hlen, hs, Logger.outputRest, Logger.enabledPrefix]
      rw [hhooks, hloc]
      simp
    | some s =>
      have hkeep' : s (l.stampEntry level message now) = true := by
        simpa [Logger.samplerKeeps, hs] using hkeep
      simp only [Logger.Output, henabled, hlen, hs, hkeep', Logger.outputRest,
        Logger.enabledPrefix]
      rw [hhooks, hloc]
      simp
  · intro i
    cases hs : l.sampler <;>
      simp [Logger.enabledPrefix, hs, List.mem_append, List.mem_map]

/-- Witness for `output_hook_error_aborts`: a single failing hook aborts
an INFO record before the exporter runs. -/
theorem output_hook_error_aborts_witness :
    ({ name := "", level := LevelDebug, sampler := none,
       hooks := [fun _ => some "boom"], exporters := [fun _ => none], labels := "",
       addSource := false } : Logger).Output 2 LevelInfo "m" 0 ""
      = (some "boom", [Event.acquire] ++ [Event.hookPrint 0] ++ [Event.free]) :=
  (output_hook_error_aborts _ 2 LevelInfo "m" 0 "" [] [] (fun _ => some "boom") "boom"
    (by decide) (by simp) (by trivial) rfl (by simp) rfl).1

/-- The hook-loop trace never contains a pool event. -/
theorem runHooks_no_pool_events (hooks : List (Entry → Option Err)) (entry : Entry)
    (index : Nat) :
    (runHooks hooks entry index).2.count Event.free = 0
      ∧ (runHooks hooks entry index).2.count Event.acquire = 0 := by
  constructor <;>
  · rw [List.count_eq_zero]
    intro hmem
    rcases runHooks_events hooks entry index _ hmem with ⟨j, hj⟩
    cases hj

/-- The exporter-loop trace never contains a pool event. -/
theorem runExporters_no_pool_events (exporters : List (Entry → Option Err)) (entry : Entry)
    (index : Nat) :
    (runExporters exporters entry index).2.count Event.free = 0
      ∧ (runExporters exporters entry index).2.count Event.acquire = 0 := by
  constructor <;>
  · rw [List.count_eq_zero]
    intro hmem
    rcases runExporters_events exporters entry index _ hmem with ⟨j, hj⟩
    cases hj

/-- The pipeline tail balances the pool events: it adds exactly one
release and no acquisition to the accumulated trace. -/
theorem outputRest_counts (l : Logger) (entry0 : Entry) (caller : SourceLocation)
    (pre : List Event) :
    (l.outputRest entry0 caller pre).2.count Event.free = pre.count Event.free + 1
      ∧ (l.outputRest entry0 caller pre).2.count Event.acquire = pre.count Event.acquire := by
  simp only [Logger.outputRest]
  split
  next err hevs heq =>
    have hh := runHooks_no_pool_events l.hooks (l.locateEntry entry0 caller) 0
    rw [heq] at hh
    simp [List.count_append, hh.1, hh.2]
  next hevs heq =>
    have hh := runHooks_no_pool_events l.hooks (l.locateEntry entry0 caller) 0
    have he := runExporters_no_pool_events l.exporters (l.locateEntry entry0 caller) 0
    rw [heq] at hh
    simp [List.count_append, hh.1, hh.2, he.1, he.2]

/-- C6: on every `Output` call, the trace contains exactly as many
entry releases as entry acquisitions, and at most one acquisition: on
each exit path (disabled call, sampling rejection, hook error, exporter
error, success) an acquired entry is released exactly once. -/
theorem output_releases_entry_once (l : Logger) (stackDepth : ZZ) (level : Level)
    (message : Message) (now : Nat) (caller : SourceLocation) :
    (l.Output stackDepth level message now caller).2.count Event.free
        = (l.Output stackDepth level message now caller).2.count Event.acquire
      ∧ (l.Output stackDepth level message now caller).2.count Event.acquire ≤ 1 := by
  simp only [Logger.Output]
  split
  · simp
  · split
    · simp
    · cases hs : l.sampler with
      | some s =>
        by_cases hd : s (l.stampEntry level message now) = true
        · have hr := outputRest_counts l (l.stampEntry level message now) caller
            [Event.acquire, Event.sample true]
          simp [hd, hr.1, hr.2]
        · simp only [Bool.not_eq_true] at hd
          simp [hd]
      | none =>
        have hr := outputRest_counts l (l.stampEntry level message now) caller
          [Event.acquire]
        simp [hr.1, hr.2]

/-- Declarative description of the exporter-closing loop: it returns the
first error in the configured list and invokes Close on the exporters up
to and including the first failing one (on all of them when none
fails). -/
theorem closeExporterLoop_spec (cfg : List (Option Err)) :
    closeExporterLoop cfg
      = (cfg.findSome? id, min (cfg.findIdx Option.isSome + 1) cfg.length) := by
  induction cfg with
  | nil => simp [closeExporterLoop]
  | cons e rest ih =>
    cases e with
    | some err =>
      simp [closeExporterLoop, List.findSome?_cons, List.findIdx_cons]
    | none =>
      simp only [closeExporterLoop, ih, List.findSome?_cons, List.findIdx_cons,
        List.length_cons, Option.isSome_none, cond_false, id]
      rw [Prod.mk.injEq]
      exact ⟨rfl, by omega⟩

/-- A Close on an open copy when the reference count is exactly one
performs the teardown: cancel, wait, close exporters until the first
error, and return that error. -/
theorem stdClose_last (cfg : List (Option Err)) (s : StdState) (i : Nat)
    (hopen : s.closedFlags.getD i true = false) (hrefs : s.references = 1) :
    StdClose cfg s i
      = ((closeExporterLoop cfg).1,
          { references := 0, closedFlags := s.closedFlags.set i true, cancelled := true,
            flushWaited := true,
            teardownLog := s.teardownLog ++ [TEvent.cancel, TEvent.wait]
              ++ (List.range (closeExporterLoop cfg).2).map TEvent.closeExporter,
            teardowns := s.teardowns + 1 }) := by
  simp only [StdClose]
  rw [hopen, hrefs]
  simp

/-- C1 (counterexample to the claim as stated): from a freshly built
logger with two exporters whose Close calls fail respectively succeed,
the final Close returns the first error but never closes the second
exporter — the loop returns immediately instead of continuing
best-effort, so the remaining sink is not closed. -/
theorem close_skips_remaining_exporters_after_error :
    (StdClose [some "boom", none] StdBuild 0).1 = some "boom"
      ∧ TEvent.closeExporter 1 ∉ (StdClose [some "boom", none] StdBuild 0).2.teardownLog := by
  constructor <;> decide

/-- C1 (amended): when a Close call on an open copy drives the shared
reference count exactly to zero, it cancels the shared background
context, waits for the background flush task to exit, then closes
exporters in registration order up to and including the first failure;
the first error is returned to the caller and the remaining exporters
are not closed (the loop aborts on the first error). -/
theorem close_teardown_behaviour (cfg : List (Option Err)) (s : StdState) (i : Nat)
    (hopen : s.closedFlags.getD i true = false) (hrefs : s.references = 1) :
    (StdClose cfg s i).1 = cfg.findSome? id
      ∧ (StdClose cfg s i).2.cancelled = true
      ∧ (StdClose cfg s i).2.flushWaited = true
      ∧ (StdClose cfg s i).2.teardownLog
          = s.teardownLog ++ [TEvent.cancel, TEvent.wait]
            ++ (List.range (min (cfg.findIdx Option.isSome + 1) cfg.length)).map
                TEvent.closeExporter
      ∧ (StdClose cfg s i).2.teardowns = s.teardowns + 1 := by
  rw [stdClose_last cfg s i hopen hrefs, closeExporterLoop_spec]
  simp

/-- Witness for `close_teardown_behaviour` on a fresh logger with a
failing first exporter. -/
theorem close_teardown_behaviour_witness :
    StdBuild.closedFlags.getD 0 true = false ∧ StdBuild.references = 1
      ∧ (StdClose [some "boom", none] StdBuild 0).1
          = List.findSome? id [some "boom", none] :=
  ⟨by decide, rfl,
    (close_teardown_behaviour [some "boom", none] StdBuild 0 (by decide) rfl).1⟩

